import Mathlib

/-!
Shallow embedding of the table-of-contents extraction pipeline
(src/Chinese_version.py, src/book.py) together with proofs of the
behavioural claims about it.  Python strings are modelled as `List Char`;
functions that may raise return `Option`/`Except`.
-/

namespace SelfStudy

/-- The ten Chinese digit characters, in value order (index = value).
Mirrors the `mapping` dict in `chinese_to_int`. -/
def cnDigits : List Char := ['零', '一', '二', '三', '四', '五', '六', '七', '八', '九']

/-- Value of a Chinese digit character, as `mapping.get` on a single char. -/
def cnDigitVal (c : Char) : Option Nat :=
  (cnDigits.indexOf? c)

/-- Characters of the regex class `[0-9零一二三四五六七八九十]`
used by `normalize_prefix`. -/
def isNumChar (c : Char) : Bool :=
  c.isDigit || cnDigits.contains c || c = '十'

/-- Whitespace characters recognised by Python `str.strip()` and by the
regex class `\s` (the ASCII whitespace characters; the exotic Unicode
whitespace code points never occur in the inputs considered here). -/
def isPySpace (c : Char) : Bool :=
  c = ' ' || c = '\t' || c = '\n' || c = '\r' || c = '\x0b' || c = '\x0c'

/-- Python `str.strip()`: drop whitespace from both ends. -/
def pyStrip (s : List Char) : List Char :=
  ((s.dropWhile isPySpace).reverse.dropWhile isPySpace).reverse

/-- Worker for `normalizePrefix`: the Boolean records whether we are
currently inside a run of numeral characters (for which the single
placeholder has already been emitted). -/
def npAux : Bool → List Char → List Char
  | _, [] => []
  | inRun, c :: rest =>
    if isNumChar c then
      if inRun then npAux true rest else '#' :: npAux true rest
    else c :: npAux false rest

/-- `normalize_prefix` from src/Chinese_version.py:
`re.sub(r'[0-9零一二三四五六七八九十]+', '#', prefix)` — every maximal run
of Arabic-digit or Chinese-numeral characters becomes a single `#`. -/
def normalizePrefix (s : List Char) : List Char :=
  npAux false s

/-- `chinese_to_int` from src/Chinese_version.py.  `none` models the
`IndexError` that `chinese_str[0]` raises on the empty string; every other
input produces a number.  `parts = s.split("十")` is modelled by
`takeWhile`/`dropWhile` around the first `'十'`. -/
def chinese_to_int (s : List Char) : Option Nat :=
  if s = ['十'] then some 10
  else
    match s with
    | [] => none
    | c :: rest =>
      if c = '十' then
        -- startswith("十"): 10 + chinese_to_int(s[1:]) if len(s) > 1 else 10
        if rest.isEmpty then some 10
        else (chinese_to_int rest).map (fun n => 10 + n)
      else if '十' ∈ c :: rest then
        -- parts = s.split("十"); tens = mapping.get(parts[0], 1);
        -- ones = chinese_to_int(parts[1]) if parts[1] else 0
        let before := (c :: rest).takeWhile (fun x => x ≠ '十')
        let part1 := (((c :: rest).dropWhile (fun x => x ≠ '十')).tail).takeWhile (fun x => x ≠ '十')
        let tens := match before with
          | [b] => (cnDigitVal b).getD 1
          | _ => 1
        (if part1.isEmpty then some 0 else chinese_to_int part1).map
          (fun ones => tens * 10 + ones)
      else
        -- mapping.get(chinese_str[0], 0)
        some ((cnDigitVal c).getD 0)
termination_by s.length
decreasing_by
  · simp
  · calc ((((c :: rest).dropWhile (fun x => decide (x ≠ '十'))).tail).takeWhile
          (fun x => decide (x ≠ '十'))).length
        ≤ (((c :: rest).dropWhile (fun x => decide (x ≠ '十'))).tail).length :=
          (List.takeWhile_sublist _).length_le
      _ = ((c :: rest).dropWhile (fun x => decide (x ≠ '十'))).length - 1 := by
          simp [List.length_tail]
      _ ≤ (c :: rest).length - 1 := by
          have := (List.dropWhile_sublist (l := c :: rest) (fun x => decide (x ≠ '十'))).length_le
          omega
      _ < (c :: rest).length := by simp

/-- The 0-99 numeral grammar described by the specification (digits 零-九
combined with 十: a single digit, 十 alone, 十 plus a units digit, a tens
digit plus 十, or a tens digit plus 十 plus a units digit).
Modelled from the spec: this grammar is the specification side of claim C6;
the source has no such predicate. -/
def specNumeralGrammar : List Char → Bool
  | ['十'] => true
  | [d] => cnDigits.contains d
  | ['十', d] => cnDigits.contains d
  | [t, '十'] => cnDigits.contains t
  | [t, '十', d] => cnDigits.contains t && cnDigits.contains d
  | _ => false

/-! ## The directory-entry data model and pipeline stages -/

/-- A directory entry `(raw_prefix, title, order_index)` as produced by
`extract_directory_tuples_from_text`: `pre` is the matched chapter-marker
text, `title` the rest of the line, `pos` the line index in the page. -/
structure Entry where
  pre : List Char
  title : List Char
  pos : Nat
deriving DecidableEq, Repr

/-- The regex class `[一-鿿]` of `is_valid_directory_item`. -/
def isCJK (c : Char) : Bool :=
  0x4e00 ≤ c.toNat && c.toNat ≤ 0x9fff

/-- `is_valid_directory_item` from src/Chinese_version.py: no replacement
character, trimmed length at least 3, and CJK ratio at least 30 percent.
The float comparison `len(chinese_chars)/len(title) < 0.3` is modelled by
the exact rational comparison `10 * cjk < 3 * len` (the two agree for all
realistic title lengths). -/
def is_valid_directory_item (title : List Char) : Bool :=
  if title.contains '�' then false
  else if (pyStrip title).length < 3 then false
  else if 0 < (pyStrip title).length ∧
      10 * (pyStrip title).countP isCJK < 3 * (pyStrip title).length then false
  else true

/-- Contiguous-substring test, Python `word in title`. -/
def containsSub (w : List Char) (t : List Char) : Bool :=
  decide (List.IsInfix w t)

/-- The `exclude_words` blocklist of `is_relevant_directory_item`. -/
def excludeWords : List (List Char) :=
  [['版', '权'], ['前', '言'], ['序', '言'], ['致', '谢'], ['附', '录'],
   ['参', '考', '文', '献'], ['索', '引'], ['目', '录'], ['说', '明'],
   ['序', '章'], ['楔', '子'], ['后', '记']]

/-- `is_relevant_directory_item` from src/Chinese_version.py. -/
def is_relevant_directory_item (title : List Char) : Bool :=
  !(excludeWords.any (fun w => containsSub w title))

/-- `filter_entries` from src/Chinese_version.py: keep entries whose title
is both valid and relevant, preserving order. -/
def filter_entries (entries : List Entry) : List Entry :=
  entries.filter
    (fun e => is_valid_directory_item e.title && is_relevant_directory_item e.title)

/-- `classify_directory_entries` from src/Chinese_version.py: partition
the entries into those whose normalized marker equals the first entry's
normalized marker (primary level) and the rest (secondary level). -/
def classify_directory_entries (entries : List Entry) : List Entry × List Entry :=
  match entries with
  | [] => ([], [])
  | first :: _ =>
    let primaryNorm := normalizePrefix first.pre
    (entries.filter (fun e => normalizePrefix e.pre == primaryNorm),
     entries.filter (fun e => !(normalizePrefix e.pre == primaryNorm)))

/-- `select_directory` from src/Chinese_version.py: primary level if it
has at least 30 entries, else secondary level if it has at least 30,
else `(None, None)`. -/
def select_directory (entries : List Entry) : Option (List Entry) × Option Nat :=
  let c := classify_directory_entries entries
  if 30 ≤ c.1.length then (some c.1, some 1)
  else if 30 ≤ c.2.length then (some c.2, some 2)
  else (none, none)

/-- `sort_directory_entries` from src/Chinese_version.py:
`sorted(entries, key=lambda x: x[2])` — a stable sort on the position
field, modelled by the stable `List.mergeSort`. -/
def sort_directory_entries (entries : List Entry) : List Entry :=
  entries.mergeSort (fun a b => decide (a.pos ≤ b.pos))

/-- One title cleaning step of `final_sort_titles`:
`re.sub(r'\d+', '', t)` removes every Arabic digit. -/
def stripDigits (t : List Char) : List Char :=
  t.filter (fun c => !c.isDigit)

/-- `final_sort_titles` from src/Chinese_version.py: strip the digits from
every title and trim, keeping the list order unchanged. -/
def final_sort_titles (titles : List (List Char)) : List (List Char) :=
  titles.map (fun t => pyStrip (stripDigits t))

/-! ## The line classifier `extract_directory_tuples_from_text`

The alternation regex of src/Chinese_version.py lines 136-149 is embedded
branch by branch.  Every character class in the pattern is disjoint from
the classes that follow it inside a branch, so the greedy matching used
below is exactly the backtracking regex semantics. -/

/-- The regex class `[零一二三四五六七八九十]`. -/
def isCnNumChar (c : Char) : Bool :=
  cnDigits.contains c || c = '十'

/-- Branch `第[零一二三四五六七八九十]+[章节]`; returns (group 1, rest). -/
def matchCnChapter : List Char → Option (List Char × List Char)
  | '第' :: rest =>
    let run := rest.takeWhile isCnNumChar
    if run.isEmpty then none
    else
      match rest.dropWhile isCnNumChar with
      | c :: rest2 =>
        if c = '章' ∨ c = '节' then some ('第' :: (run ++ (c :: [])), rest2)
        else none
      | [] => none
  | _ => none

/-- Case-insensitive literal matching (re.IGNORECASE on ASCII keywords);
returns the consumed source characters and the remainder. -/
def matchCI : List Char → List Char → Option (List Char × List Char)
  | [], s => some ([], s)
  | _ :: _, [] => none
  | k :: ks, c :: cs =>
    if k.toLower = c.toLower then
      (matchCI ks cs).map (fun r => (c :: r.1, r.2))
    else none

/-- Branches `Chapter\s*\d+`, `Section\s*\d+`, ... ; returns (group 1, rest). -/
def matchKeywordNum (kw : List Char) (s : List Char) : Option (List Char × List Char) :=
  match matchCI kw s with
  | none => none
  | some (m, r) =>
    let sp := r.takeWhile isPySpace
    let r2 := r.dropWhile isPySpace
    let ds := r2.takeWhile Char.isDigit
    if ds.isEmpty then none
    else some (m ++ sp ++ ds, r2.dropWhile Char.isDigit)

/-- Branch `\d+\s*[:：.]\s*`; returns (group 1, rest). -/
def matchNumPunct (s : List Char) : Option (List Char × List Char) :=
  let ds := s.takeWhile Char.isDigit
  if ds.isEmpty then none
  else
    let r := s.dropWhile Char.isDigit
    let sp := r.takeWhile isPySpace
    match r.dropWhile isPySpace with
    | c :: r2 =>
      if c = ':' ∨ c = '：' ∨ c = '.' then
        some (ds ++ sp ++ (c :: r2.takeWhile isPySpace), r2.dropWhile isPySpace)
      else none
    | [] => none

/-- Branch `\d+\s+`; returns (group 1, rest). -/
def matchNumSpace (s : List Char) : Option (List Char × List Char) :=
  let ds := s.takeWhile Char.isDigit
  if ds.isEmpty then none
  else
    let r := s.dropWhile Char.isDigit
    let sp := r.takeWhile isPySpace
    if sp.isEmpty then none
    else some (ds ++ sp, r.dropWhile isPySpace)

/-- The full group-1 alternation, in the order of the source pattern. -/
def matchMarkerAt (s : List Char) : Option (List Char × List Char) :=
  matchCnChapter s <|>
  matchKeywordNum (("chapter").data) s <|>
  matchKeywordNum (("section").data) s <|>
  matchKeywordNum (("part").data) s <|>
  matchKeywordNum (("volume").data) s <|>
  matchKeywordNum (("unit").data) s <|>
  matchKeywordNum (("module").data) s <|>
  matchNumPunct s <|>
  matchNumSpace s

/-- Whole pattern at a fixed position: group 1, then `\s*[:：]?\s*`, then
group 2 `(.*)` — the rest of the line.  Returns (group 1, group 2). -/
def matchLineAt (s : List Char) : Option (List Char × List Char) :=
  match matchMarkerAt s with
  | none => none
  | some (g1, r) =>
    let r1 := r.dropWhile isPySpace
    let r2 := match r1 with
      | c :: t => if c = ':' ∨ c = '：' then t else r1
      | [] => r1
    some (g1, r2.dropWhile isPySpace)

/-- `pattern.search`: try the pattern at each position, leftmost first
(no branch matches the empty suffix, so the scan may stop at the end). -/
def searchLine : List Char → Option (List Char × List Char)
  | [] => none
  | s@(_ :: rest) =>
    match matchLineAt s with
    | some r => some r
    | none => searchLine rest

/-- Approximation of the regex class `\w` (Unicode word character)
sufficient for the inputs appearing here: ASCII alphanumerics, underscore
and CJK ideographs. -/
def isWordChar (c : Char) : Bool :=
  c.isAlphanum || c = '_' || isCJK c

/-- Exclusion regex `©\d{4}\s*\w+` tested at one position. -/
def copyrightAt : List Char → Bool
  | '©' :: r =>
    if 4 ≤ (r.takeWhile Char.isDigit).length then
      match (r.drop 4).dropWhile isPySpace with
      | c :: _ => isWordChar c
      | [] => false
    else false
  | _ => false

/-- Exclusion regex `\d+\s*页` tested at one position. -/
def pageMarkAt (s : List Char) : Bool :=
  if (s.takeWhile Char.isDigit).isEmpty then false
  else
    match (s.dropWhile Char.isDigit).dropWhile isPySpace with
    | c :: _ => c = '页'
    | [] => false

/-- `re.search`: some starting position makes the pattern match. -/
def existsAt (p : List Char → Bool) : List Char → Bool
  | [] => p []
  | s@(_ :: rest) => p s || existsAt p rest

/-- Anchored exclusion regex `^\d+\s*[^\w\s]+$`. -/
def numPunctLine (s : List Char) : Bool :=
  if (s.takeWhile Char.isDigit).isEmpty then false
  else
    let r := (s.dropWhile Char.isDigit).dropWhile isPySpace
    !r.isEmpty && r.all (fun c => !(isWordChar c) && !(isPySpace c))

/-- All four `exclude_patterns` of the source, searched as `re.search`
does (the last two are anchored by `^...$`). -/
def excludedLine (line : List Char) : Bool :=
  existsAt copyrightAt line || existsAt pageMarkAt line ||
  (!line.isEmpty && line.all Char.isDigit) || numPunctLine line

/-- The `exclude_keywords` check: case-insensitive substring "appendices". -/
def hasExcludeKeyword (line : List Char) : Bool :=
  containsSub (("appendices").data) (line.map Char.toLower)

/-- Python `text.split('\n')`. -/
def splitLines : List Char → List (List Char)
  | [] => [[]]
  | c :: rest =>
    if c = '\n' then [] :: splitLines rest
    else
      match splitLines rest with
      | [] => [[c]]
      | l :: ls => (c :: l) :: ls

/-- `extract_directory_tuples_from_text` from src/Chinese_version.py:
enumerate the lines, strip each, skip empty/excluded lines, search the
marker pattern, and keep `(stripped group 1, stripped group 2, index)`
when the stripped title is nonempty. -/
def extract_directory_tuples_from_text (text : List Char) : List Entry :=
  ((splitLines text).enum).filterMap (fun p =>
    let line := pyStrip p.2
    if line.isEmpty then none
    else if excludedLine line then none
    else if hasExcludeKeyword line then none
    else
      match searchLine line with
      | none => none
      | some (g1, g2) =>
        let t := pyStrip g2
        if t.isEmpty then none else some ⟨pyStrip g1, t, p.1⟩)

/-- The extraction-to-cleaning pipeline exactly as composed in `main`:
extract, filter, select, sort, then clean the titles; `none` when
`select_directory` failed. -/
def pipelineTitles (text : List Char) : Option (List (List Char)) :=
  match select_directory (filter_entries (extract_directory_tuples_from_text text)) with
  | (some sel, _) => some (final_sort_titles ((sort_directory_entries sel).map Entry.title))
  | _ => none

/-- Standard Chinese numeral for 1-99 (input construction for claim C1). -/
def cnNumeral (n : Nat) : List Char :=
  if n < 10 then (cnDigits.getD n ' ') :: []
  else if n = 10 then '十' :: []
  else if n < 20 then '十' :: (cnDigits.getD (n - 10) ' ') :: []
  else if n % 10 = 0 then (cnDigits.getD (n / 10) ' ') :: '十' :: []
  else (cnDigits.getD (n / 10) ' ') :: '十' :: (cnDigits.getD (n % 10) ' ') :: []

/-- Python `"\n".join`. -/
def joinLines : List (List Char) → List Char
  | [] => []
  | l :: [] => l
  | l :: ls => l ++ '\n' :: joinLines ls

/-- The line 第N章 标题N with N a Chinese numeral. -/
def c1LineCn (n : Nat) : List Char :=
  ('第' :: cnNumeral n) ++ ('章' :: ' ' :: '标' :: '题' :: []) ++ cnNumeral n

/-- The line 第n章 标题n with n in Arabic digits. -/
def c1LineAr (n : Nat) : List Char :=
  ('第' :: (Nat.toDigits 10 n)) ++ ('章' :: ' ' :: '标' :: '题' :: []) ++ (Nat.toDigits 10 n)

/-- 35 lines 第N章 标题N, N = 一 .. 三十五. -/
def c1TextCn : List Char :=
  joinLines ((List.range 35).map (fun i => c1LineCn (i + 1)))

/-- 35 lines 第n章 标题n, n = 1 .. 35 in Arabic digits. -/
def c1TextAr : List Char :=
  joinLines ((List.range 35).map (fun i => c1LineAr (i + 1)))

/-- The 35 expected titles 标题N in ascending order. -/
def c1Expected : List (List Char) :=
  (List.range 35).map (fun i => ('标' :: '题' :: []) ++ cnNumeral (i + 1))

/-- The 35 entries the line classifier yields on `c1TextCn`. -/
def c1Entries : List Entry :=
  (List.range 35).map (fun i =>
    ⟨('第' :: cnNumeral (i + 1)) ++ ('章' :: []),
     ('标' :: '题' :: []) ++ cnNumeral (i + 1), i⟩)

/-- Concrete primary-style entry (marker 第1章) for claim C2. -/
def c2EntryA : Entry :=
  ⟨('第' :: '1' :: '章' :: []), ('概' :: '论' :: '甲' :: []), 0⟩

/-- Concrete secondary-style entry (marker 1.) for claim C2. -/
def c2EntryB : Entry :=
  ⟨('1' :: '.' :: []), ('概' :: '论' :: '乙' :: []), 1⟩

/-- 25 primary-level entries followed by 32 secondary-level entries. -/
def c2Input : List Entry :=
  List.replicate 25 c2EntryA ++ List.replicate 32 c2EntryB

/-- Fewer than 30 entries at both levels. -/
def c2Small : List Entry :=
  List.replicate 5 c2EntryA ++ List.replicate 4 c2EntryB

/-! ## The book-title extractor (claim C9) -/

/-- The regex class `[一-龥]` of the book-title pattern (name characters). -/
def isHan (c : Char) : Bool :=
  0x4e00 ≤ c.toNat && c.toNat ≤ 0x9fa5

/-- One `findall` tuple of the book-title pattern, groups 1-4:
`(name)《(title)》` sets groups 1-2, `《(title)》(name)` sets groups 3-4,
the unused groups are empty strings. -/
structure BookMatch where
  g1 : List Char
  g2 : List Char
  g3 : List Char
  g4 : List Char
deriving DecidableEq, Repr

/-- Branch `([一-龥]{2,4})《([^《》]+)》` at a fixed position.  The han run
taken is maximal, so the greedy `{2,4}` with backtracking succeeds exactly
when the maximal run has length 2-4 and is followed by 《. -/
def tryBranch1 (s : List Char) : Option (BookMatch × List Char) :=
  let run := s.takeWhile isHan
  if 2 ≤ run.length ∧ run.length ≤ 4 then
    match s.drop run.length with
    | '《' :: rest =>
      let content := rest.takeWhile (fun c => !(c = '《' ∨ c = '》'))
      if content.isEmpty then none
      else
        match rest.drop content.length with
        | '》' :: rest2 => some (⟨run, content, [], []⟩, rest2)
        | _ => none
    | _ => none
  else none

/-- Branch `《([^《》]+)》([一-龥]{2,4})` at a fixed position; the greedy
`{2,4}` takes at most four characters of the following han run. -/
def tryBranch2 (s : List Char) : Option (BookMatch × List Char) :=
  match s with
  | '《' :: rest =>
    let content := rest.takeWhile (fun c => !(c = '《' ∨ c = '》'))
    if content.isEmpty then none
    else
      match rest.drop content.length with
      | '》' :: rest2 =>
        let run := rest2.takeWhile isHan
        if 2 ≤ run.length then
          some (⟨[], [], content, run.take 4⟩, rest2.drop (min 4 run.length))
        else none
      | _ => none
  | _ => none

/-- Scanner for `re.findall`: leftmost matches, branch 1 preferred at each
position, non-overlapping (continue after the match).  Every successful
match consumes at least one character, so `s.length` fuel suffices. -/
def bookMatchesAux : Nat → List Char → List BookMatch
  | 0, _ => []
  | fuel + 1, s =>
    match s with
    | [] => []
    | _ :: rest =>
      match tryBranch1 s with
      | some (m, r) => m :: bookMatchesAux fuel r
      | none =>
        match tryBranch2 s with
        | some (m, r) => m :: bookMatchesAux fuel r
        | none => bookMatchesAux fuel rest

/-- `re.findall` of the book-title pattern over the whole text. -/
def bookMatches (s : List Char) : List BookMatch :=
  bookMatchesAux s.length s

/-- Adding one element to the Python set, recorded as its
insertion-ordered element list. -/
def insertNew (acc : List (List Char)) (t : List Char) : List (List Char) :=
  if t ∈ acc then acc else acc ++ (t :: [])

/-- The collection loop of `extract_book_titles_with_authors`
(src/Chinese_version.py): break once the set holds `maxTitles` elements;
use group 2 when nonempty, else group 3; strip it and add it to the set
when the stripped title is nonempty. -/
def collectTitles (maxTitles : Nat) : List BookMatch → List (List Char) → List (List Char)
  | [], acc => acc
  | m :: ms, acc =>
    if maxTitles ≤ acc.length then acc
    else
      collectTitles maxTitles ms
        (if !m.g2.isEmpty then
          (if !(pyStrip m.g2).isEmpty then insertNew acc (pyStrip m.g2) else acc)
        else if !m.g3.isEmpty then
          (if !(pyStrip m.g3).isEmpty then insertNew acc (pyStrip m.g3) else acc)
        else acc)

/-- `extract_book_titles_with_authors` from src/Chinese_version.py.
`setIter` models the iteration order of the Python `set` in
`list(book_titles)[:max_titles]`: CPython specifies only that iterating a
set enumerates its elements in some order, so the order is a parameter,
and every `setIter` that permutes its input is a valid instantiation. -/
def extract_book_titles_with_authors
    (text : List Char) (maxTitles : Nat)
    (setIter : List (List Char) → List (List Char)) : List (List Char) :=
  (setIter (collectTitles maxTitles (bookMatches text) [])).take maxTitles

/-- Text with two author-adjacent book titles, 资本论 then 红楼梦. -/
def c9Text : List Char :=
  ("张三《资本论》李四《红楼梦》").data

/-! ## JSON recovery (claim C8) -/

/-- The Python objects `json.loads` can return, restricted to the
constructs that occur in generative-model responses (numbers are
integers): None, bool, int, str, list and dict. -/
inductive PyObj where
  | pyNone : PyObj
  | pyBool (b : Bool) : PyObj
  | pyInt (n : Int) : PyObj
  | pyStr (s : List Char) : PyObj
  | pyList (items : List PyObj) : PyObj
  | pyDict (entries : List (List Char × PyObj)) : PyObj
deriving Repr

/-- JSON whitespace. -/
def isJsonWs (c : Char) : Bool :=
  c = ' ' || c = '\t' || c = '\n' || c = '\r'

/-- Skip JSON whitespace. -/
def skipWs (s : List Char) : List Char :=
  s.dropWhile isJsonWs

/-- Decode one escape character of a JSON string; the common escapes are
handled and `\u` escapes are unsupported (unused here). -/
def escChar (e : Char) : Option Char :=
  if e = 'n' then some '\n'
  else if e = 't' then some '\t'
  else if e = 'r' then some '\r'
  else if e = 'b' then some '\x08'
  else if e = 'f' then some '\x0c'
  else if e = '"' then some '"'
  else if e = '\\' then some '\\'
  else if e = '/' then some '/'
  else none

/-- Parse the body of a JSON string after the opening quote; returns the
decoded characters and the remainder after the closing quote. -/
def parseJsonString : List Char → Option (List Char × List Char)
  | [] => none
  | '"' :: rest => some ([], rest)
  | '\\' :: e :: rest =>
    match escChar e with
    | none => none
    | some d => (parseJsonString rest).map (fun r => (d :: r.1, r.2))
  | c :: rest => (parseJsonString rest).map (fun r => (c :: r.1, r.2))

/-- Decimal value of a digit run. -/
def digitsToNat (ds : List Char) : Nat :=
  ds.foldl (fun a c => a * 10 + (c.toNat - ('0').toNat)) 0

/-- Parse a JSON integer (fraction and exponent forms unsupported,
unused here). -/
def parseJsonNumber (s : List Char) : Option (Int × List Char) :=
  match s with
  | '-' :: rest =>
    let ds := rest.takeWhile Char.isDigit
    if ds.isEmpty then none
    else some (-(digitsToNat ds : Int), rest.dropWhile Char.isDigit)
  | _ =>
    let ds := s.takeWhile Char.isDigit
    if ds.isEmpty then none
    else some ((digitsToNat ds : Int), s.dropWhile Char.isDigit)

/-- Match a literal character sequence, returning the remainder. -/
def matchLit : List Char → List Char → Option (List Char)
  | [], s => some s
  | l :: ls, c :: cs => if c = l then matchLit ls cs else none
  | _ :: _, [] => none

mutual

/-- Parse one JSON value (leading whitespace allowed), fuel-indexed: the
fuel bounds the nesting depth, and the input length plus one is always
enough. -/
def parseJsonValue : Nat → List Char → Option (PyObj × List Char)
  | 0, _ => none
  | fuel + 1, s =>
    match skipWs s with
    | [] => none
    | c :: rest =>
      if c = '\x7b' then
        match skipWs rest with
        | '\x7d' :: r2 => some (PyObj.pyDict [], r2)
        | _ => (parseJsonMembers fuel (skipWs rest)).map
            (fun r => (PyObj.pyDict r.1, r.2))
      else if c = '[' then
        match skipWs rest with
        | ']' :: r2 => some (PyObj.pyList [], r2)
        | _ => (parseJsonItems fuel (skipWs rest)).map
            (fun r => (PyObj.pyList r.1, r.2))
      else if c = '"' then
        (parseJsonString rest).map (fun r => (PyObj.pyStr r.1, r.2))
      else if c = 't' then
        (matchLit (("rue").data) rest).map (fun r => (PyObj.pyBool true, r))
      else if c = 'f' then
        (matchLit (("alse").data) rest).map (fun r => (PyObj.pyBool false, r))
      else if c = 'n' then
        (matchLit (("ull").data) rest).map (fun r => (PyObj.pyNone, r))
      else
        (parseJsonNumber (c :: rest)).map (fun r => (PyObj.pyInt r.1, r.2))

/-- Parse the members of a JSON object after its opening brace (first key
expected at the head), through the closing brace. -/
def parseJsonMembers : Nat → List Char → Option (List (List Char × PyObj) × List Char)
  | 0, _ => none
  | fuel + 1, s =>
    match s with
    | '"' :: rest =>
      match parseJsonString rest with
      | none => none
      | some (key, r1) =>
        match skipWs r1 with
        | ':' :: r2 =>
          match parseJsonValue fuel r2 with
          | none => none
          | some (v, r3) =>
            match skipWs r3 with
            | ',' :: r4 =>
              (parseJsonMembers fuel (skipWs r4)).map
                (fun r => ((key, v) :: r.1, r.2))
            | '\x7d' :: r4 => some ((key, v) :: [], r4)
            | _ => none
        | _ => none
    | _ => none

/-- Parse the items of a JSON array after its opening bracket, through the
closing bracket. -/
def parseJsonItems : Nat → List Char → Option (List PyObj × List Char)
  | 0, _ => none
  | fuel + 1, s =>
    match parseJsonValue fuel s with
    | none => none
    | some (v, r1) =>
      match skipWs r1 with
      | ',' :: r2 => (parseJsonItems fuel r2).map (fun r => (v :: r.1, r.2))
      | ']' :: r2 => some ((v :: []), r2)
      | _ => none

end

/-- `json.loads` (modelled stdlib collaborator): parse one value and
require only whitespace after it. -/
def json_loads (s : List Char) : Option PyObj :=
  match parseJsonValue (s.length + 1) s with
  | some (v, rest) => if (skipWs rest).isEmpty then some v else none
  | none => none

/-- Python `str.find`, as an Option instead of the -1 sentinel. -/
def pyFind (c : Char) : List Char → Option Nat
  | [] => none
  | x :: xs => if x = c then some 0 else (pyFind c xs).map (fun i => i + 1)

/-- Python `str.rfind`, as an Option instead of the -1 sentinel. -/
def pyRFind (c : Char) (s : List Char) : Option Nat :=
  (pyFind c s.reverse).map (fun i => s.length - 1 - i)

/-- `fix_json_content` from src/Chinese_version.py: parse directly; on
failure slice from the first opening brace to the last closing brace and
re-parse; if that also fails (or no such slice exists) raise, modelled by
`Except.error`. -/
def fix_json_content (raw : List Char) : Except (List Char) PyObj :=
  match json_loads raw with
  | some v => Except.ok v
  | none =>
    match pyFind '\x7b' raw, pyRFind '\x7d' raw with
    | some si, some ei =>
      if si < ei then
        match json_loads ((raw.drop si).take (ei + 1 - si)) with
        | some v => Except.ok v
        | none => Except.error (("could not fix the JSON content").data)
      else Except.error (("no valid JSON object boundaries found").data)
    | _, _ => Except.error (("no valid JSON object boundaries found").data)

/-- The recovery parse inside `fix_json_content`: the first-brace to
last-closing-brace slice, `none` when the slice does not exist or does not
parse. -/
def sliceLoad (raw : List Char) : Option PyObj :=
  match pyFind '\x7b' raw, pyRFind '\x7d' raw with
  | some si, some ei =>
    if si < ei then json_loads ((raw.drop si).take (ei + 1 - si)) else none
  | _, _ => none

/-- Whether an `Except` result is an error. -/
def isErr : Except (List Char) PyObj → Bool
  | Except.error _ => true
  | Except.ok _ => false

/-- The garbage-free JSON object of the C8 round-trip, without its
surrounding braces. -/
def c8Mid : List Char :=
  ("\"sections\":[\x7b\"section_number\":\"chapter1\",\"description\":\"d\"\x7d]").data

/-- The C8 prefix garbage. -/
def c8Pre : List Char := ("prefix-garbage").data

/-- The C8 suffix garbage. -/
def c8Post : List Char := ("suffix-garbage").data

/-- The parsed form of the embedded C8 object. -/
def c8Expected : PyObj :=
  PyObj.pyDict
    (((("sections").data,
       PyObj.pyList
         ((PyObj.pyDict
           (((("section_number").data, PyObj.pyStr (("chapter1").data)) ::
             ((("description").data, PyObj.pyStr (("d").data)) :: [])))) :: []))) :: [])

/-! ## Facts about `normalizePrefix` (claim C4) -/

theorem npAux_no_num (b : Bool) (s : List Char) :
    ∀ c ∈ npAux b s, isNumChar c = false := by
  induction s generalizing b with
  | nil => intro c hc; simp [npAux] at hc
  | cons a rest ih =>
    intro c hc
    by_cases ha : isNumChar a
    · by_cases hb : b
      · subst hb
        rw [npAux, if_pos ha, if_pos rfl] at hc
        exact ih true c hc
      · simp only [Bool.not_eq_true] at hb
        subst hb
        rw [npAux, if_pos ha, if_neg (by simp)] at hc
        rcases List.mem_cons.mp hc with rfl | hc2
        · decide
        · exact ih true c hc2
    · rw [npAux, if_neg ha] at hc
      rcases List.mem_cons.mp hc with rfl | hc2
      · simpa using ha
      · exact ih false c hc2

theorem npAux_fixed (s : List Char) (h : ∀ c ∈ s, isNumChar c = false) :
    npAux false s = s := by
  induction s with
  | nil => rfl
  | cons a rest ih =>
    have ha : isNumChar a = false := h a (by simp)
    rw [npAux, if_neg (by simp [ha])]
    rw [ih (fun c hc => h c (by simp [hc]))]

/-- C4: for every input string, `normalize_prefix` is idempotent:
applying it twice gives the same result as applying it once. -/
theorem claim_C4 (s : List Char) :
    normalizePrefix (normalizePrefix s) = normalizePrefix s := by
  unfold normalizePrefix
  exact npAux_fixed (npAux false s) (npAux_no_num false s)

/-! ## Facts about `chinese_to_int` (claims C5 and C6) -/

unseal chinese_to_int in
/-- C5: `chinese_to_int` yields 10 on 十, 11 on 十一, 20 on 二十,
23 on 二十三, and 5 on 五. -/
theorem claim_C5 :
    chinese_to_int ('十' :: []) = some 10 ∧
    chinese_to_int ('十' :: '一' :: []) = some 11 ∧
    chinese_to_int ('二' :: '十' :: []) = some 20 ∧
    chinese_to_int ('二' :: '十' :: '三' :: []) = some 23 ∧
    chinese_to_int ('五' :: []) = some 5 :=
  ⟨rfl, rfl, rfl, rfl, rfl⟩

unseal chinese_to_int in
/-- Counterexample to C6 as stated: the single character 百 is outside the
0-99 grammar, yet `chinese_to_int` returns the number 0 for it (via
`mapping.get(chinese_str[0], 0)`), not a None sentinel. -/
theorem claim_C6_cex :
    specNumeralGrammar ('百' :: []) = false ∧
    chinese_to_int ('百' :: []) = some 0 :=
  ⟨rfl, rfl⟩

/-- C6 (amended): `chinese_to_int` never returns the None sentinel on a
nonempty token — inside or outside the grammar it always produces some
number; the None sentinel for unparseable prefixes is produced by its
caller `parse_chapter_number`, and the empty token raises `IndexError`
(modelled by the `none` result reserved for `[]`). -/
theorem claim_C6 : ∀ (s : List Char), s ≠ [] → (chinese_to_int s).isSome := by
  intro s
  induction s using chinese_to_int.induct with
  | case1 => intro _; simp [chinese_to_int]
  | case2 => intro h; exact absurd rfl h
  | case3 rest hre hne =>
    intro _
    rw [chinese_to_int.eq_def, if_neg hne]
    simp only []
    rw [if_pos trivial, if_pos hre]
    rfl
  | case4 rest hre hne ih =>
    intro _
    have h2 : rest ≠ [] := by
      intro h; rw [h] at hre; simp at hre
    rcases Option.isSome_iff_exists.mp (ih h2) with ⟨n, hn⟩
    rw [chinese_to_int.eq_def, if_neg hne]
    simp only []
    rw [if_pos trivial, if_neg (by simpa using hre), hn]
    rfl
  | case5 c rest hc hmem p1 hne ih =>
    intro _
    rw [chinese_to_int.eq_def, if_neg hne]
    simp only []
    rw [if_neg hc, if_pos hmem]
    by_cases hp : (List.takeWhile (fun x => decide (x ≠ '十'))
        (List.dropWhile (fun x => decide (x ≠ '十')) (c :: rest)).tail).isEmpty
    · rw [if_pos hp]; rfl
    · have h2 : (List.takeWhile (fun x => decide (x ≠ '十'))
          (List.dropWhile (fun x => decide (x ≠ '十')) (c :: rest)).tail) ≠ [] := by
        intro h; rw [h] at hp; simp at hp
      rcases Option.isSome_iff_exists.mp (ih h2) with ⟨n, hn⟩
      rw [if_neg hp, hn]
      rfl
  | case6 c rest hc hmem hne =>
    intro _
    rw [chinese_to_int.eq_def, if_neg hne]
    simp only []
    rw [if_neg hc, if_neg hmem]
    rfl

/-- Witness for C6 (amended), at the concrete out-of-grammar token 百. -/
theorem claim_C6_witness : (chinese_to_int ('百' :: [])).isSome :=
  claim_C6 ('百' :: []) (by decide)

/-! ## Facts about the entry filter (claim C7) -/

/-- C7: `is_valid_directory_item` rejects every title containing the
replacement character, every title of trimmed length below 3, and every
title whose CJK proportion is below 30 percent; ab and abc123我 are
rejected while 第一章概论 is accepted. -/
theorem claim_C7 :
    (∀ t : List Char, '�' ∈ t → is_valid_directory_item t = false) ∧
    (∀ t : List Char, (pyStrip t).length < 3 → is_valid_directory_item t = false) ∧
    (∀ t : List Char, 10 * (pyStrip t).countP isCJK < 3 * (pyStrip t).length →
      is_valid_directory_item t = false) ∧
    is_valid_directory_item ('a' :: 'b' :: []) = false ∧
    is_valid_directory_item ('a' :: 'b' :: 'c' :: '1' :: '2' :: '3' :: '我' :: []) = false ∧
    is_valid_directory_item ('第' :: '一' :: '章' :: '概' :: '论' :: []) = true := by
  refine ⟨?_, ?_, ?_, by decide, by decide, by decide⟩
  · intro t ht
    have hc : t.contains '�' = true := by
      rw [List.contains_iff_exists_mem_beq]
      exact ⟨'�', ht, by simp⟩
    unfold is_valid_directory_item
    rw [if_pos hc]
  · intro t ht
    unfold is_valid_directory_item
    by_cases hc : t.contains '�' = true
    · rw [if_pos hc]
    · rw [if_neg hc, if_pos ht]
  · intro t ht
    unfold is_valid_directory_item
    by_cases hc : t.contains '�' = true
    · rw [if_pos hc]
    · rw [if_neg hc]
      by_cases hl : (pyStrip t).length < 3
      · rw [if_pos hl]
      · rw [if_neg hl, if_pos ⟨by omega, ht⟩]

/-- Witness for C7, discharging each hypothesis at a concrete title. -/
theorem claim_C7_witness :
    is_valid_directory_item ('�' :: 'a' :: 'b' :: []) = false ∧
    is_valid_directory_item (' ' :: 'a' :: 'b' :: []) = false ∧
    is_valid_directory_item ('a' :: 'b' :: 'c' :: 'd' :: []) = false :=
  ⟨claim_C7.1 _ (by decide), claim_C7.2.1 _ (by decide), claim_C7.2.2.1 _ (by decide)⟩

/-! ## Facts about the level selector (claims C2 and C10) -/

/-- C2: `select_directory` prefers a primary level of at least 30 entries,
then a secondary level of at least 30 entries, else fails; with 25 primary
and 32 secondary entries it picks the secondary set with indicator 2, and
with fewer than 30 on both levels it returns `(none, none)`. -/
theorem claim_C2 :
    (∀ es : List Entry,
      (30 ≤ (classify_directory_entries es).1.length →
        select_directory es = (some (classify_directory_entries es).1, some 1)) ∧
      ((classify_directory_entries es).1.length < 30 →
        30 ≤ (classify_directory_entries es).2.length →
        select_directory es = (some (classify_directory_entries es).2, some 2)) ∧
      ((classify_directory_entries es).1.length < 30 →
        (classify_directory_entries es).2.length < 30 →
        select_directory es = (none, none))) ∧
    select_directory c2Input = (some (List.replicate 32 c2EntryB), some 2) ∧
    select_directory c2Small = (none, none) := by
  refine ⟨?_, by decide, by decide⟩
  intro es
  refine ⟨?_, ?_, ?_⟩
  · intro h
    simp [select_directory, h]
  · intro h1 h2
    simp [select_directory, Nat.not_le.mpr h1, h2]
  · intro h1 h2
    simp [select_directory, Nat.not_le.mpr h1, Nat.not_le.mpr h2]

/-- Witness for C2, at the concrete 25-primary/32-secondary input. -/
theorem claim_C2_witness :
    select_directory c2Input = (some (classify_directory_entries c2Input).2, some 2) :=
  (claim_C2.1 c2Input).2.1 (by decide) (by decide)

/-- C10: on a nonempty input the first entry lands in the primary list
(which heads the partition), every entry lands in exactly one of the two
lists, and both lists preserve the relative input order (sublists). -/
theorem claim_C10 (es : List Entry) (hne : es ≠ []) :
    (classify_directory_entries es).1.head? = es.head? ∧
    (classify_directory_entries es).1.length + (classify_directory_entries es).2.length
      = es.length ∧
    (∀ e ∈ es,
      (e ∈ (classify_directory_entries es).1 ∧ e ∉ (classify_directory_entries es).2) ∨
      (e ∉ (classify_directory_entries es).1 ∧ e ∈ (classify_directory_entries es).2)) ∧
    (classify_directory_entries es).1.Sublist es ∧
    (classify_directory_entries es).2.Sublist es := by
  match es, hne with
  | first :: rest, _ =>
    have hpfirst : (normalizePrefix first.pre == normalizePrefix first.pre) = true := by
      simp
    have hc : classify_directory_entries (first :: rest) =
        ((first :: rest).filter
          (fun e => normalizePrefix e.pre == normalizePrefix first.pre),
         (first :: rest).filter
          (fun e => !(normalizePrefix e.pre == normalizePrefix first.pre))) := rfl
    rw [hc]
    refine ⟨?_, ?_, ?_, ?_, ?_⟩
    · rw [List.filter_cons, if_pos hpfirst]
      rfl
    · have hp := (List.filter_append_perm
        (fun e => normalizePrefix e.pre == normalizePrefix first.pre)
        (first :: rest)).length_eq
      rw [List.length_append] at hp
      exact hp
    · intro e he
      by_cases hp2 : (normalizePrefix e.pre == normalizePrefix first.pre) = true
      · refine Or.inl ⟨List.mem_filter.mpr ⟨he, hp2⟩, ?_⟩
        intro hmem
        have h2 := (List.mem_filter.mp hmem).2
        rw [hp2] at h2
        simp at h2
      · exact Or.inr ⟨fun hmem => hp2 (List.mem_filter.mp hmem).2,
          List.mem_filter.mpr ⟨he, by simp [hp2]⟩⟩
    · exact List.filter_sublist _
    · exact List.filter_sublist _

/-- Witness for C10, at a concrete two-entry input. -/
theorem claim_C10_witness :
    (classify_directory_entries (c2EntryA :: c2EntryB :: [])).1.head? =
      (c2EntryA :: c2EntryB :: []).head? ∧
    (classify_directory_entries (c2EntryA :: c2EntryB :: [])).1.length +
      (classify_directory_entries (c2EntryA :: c2EntryB :: [])).2.length =
      (c2EntryA :: c2EntryB :: []).length ∧
    (∀ e ∈ (c2EntryA :: c2EntryB :: []),
      (e ∈ (classify_directory_entries (c2EntryA :: c2EntryB :: [])).1 ∧
        e ∉ (classify_directory_entries (c2EntryA :: c2EntryB :: [])).2) ∨
      (e ∉ (classify_directory_entries (c2EntryA :: c2EntryB :: [])).1 ∧
        e ∈ (classify_directory_entries (c2EntryA :: c2EntryB :: [])).2)) ∧
    (classify_directory_entries (c2EntryA :: c2EntryB :: [])).1.Sublist
      (c2EntryA :: c2EntryB :: []) ∧
    (classify_directory_entries (c2EntryA :: c2EntryB :: [])).2.Sublist
      (c2EntryA :: c2EntryB :: []) :=
  claim_C10 (c2EntryA :: c2EntryB :: []) (by decide)

/-! ## Facts about the sequencer (claim C3) -/

theorem sorted_le_nodup_strict :
    ∀ (l : List Entry), l.Pairwise (fun a b => a.pos ≤ b.pos) →
      (l.map Entry.pos).Nodup → l.Pairwise (fun a b => a.pos < b.pos) := by
  intro l
  induction l with
  | nil => intro _ _; exact List.Pairwise.nil
  | cons a t ih =>
    intro hp hn
    rcases List.pairwise_cons.mp hp with ⟨ha, ht⟩
    rw [List.map_cons] at hn
    rcases List.nodup_cons.mp hn with ⟨hna, hnt⟩
    refine List.pairwise_cons.mpr ⟨?_, ih ht hnt⟩
    intro b hb
    have hne : a.pos ≠ b.pos := by
      intro h
      exact hna (by rw [h]; exact List.mem_map_of_mem Entry.pos hb)
    exact lt_of_le_of_ne (ha b hb) hne

/-- C3: sorting the selected entries yields a permutation of the input
that is strictly ascending in the position field (positions are distinct
line indices), and `final_sort_titles` cleans the titles elementwise in
that order — so the final outline order is exactly position order. -/
theorem claim_C3 (es : List Entry) (h : (es.map Entry.pos).Nodup) :
    (sort_directory_entries es).Perm es ∧
    (sort_directory_entries es).Pairwise (fun a b => a.pos < b.pos) ∧
    final_sort_titles ((sort_directory_entries es).map Entry.title) =
      (sort_directory_entries es).map (fun e => pyStrip (stripDigits e.title)) := by
  have hperm : (sort_directory_entries es).Perm es := List.mergeSort_perm es _
  refine ⟨hperm, ?_, ?_⟩
  · have hs : (es.mergeSort (fun a b => decide (a.pos ≤ b.pos))).Pairwise
        (fun a b => (decide (a.pos ≤ b.pos)) = true) :=
      List.sorted_mergeSort
        (by intro a b c h1 h2; simp at h1 h2 ⊢; omega)
        (by intro a b; simpa using Nat.le_total a.pos b.pos)
        es
    have hle : (sort_directory_entries es).Pairwise (fun a b => a.pos ≤ b.pos) :=
      hs.imp (by intro a b hab; simpa using hab)
    have hsn : ((sort_directory_entries es).map Entry.pos).Nodup :=
      ((hperm.map Entry.pos).nodup_iff).mpr h
    exact sorted_le_nodup_strict _ hle hsn
  · simp [final_sort_titles, List.map_map]

/-- Witness for C3, at a concrete two-entry input with distinct positions. -/
theorem claim_C3_witness :
    (sort_directory_entries (c2EntryB :: c2EntryA :: [])).Perm
      (c2EntryB :: c2EntryA :: []) ∧
    (sort_directory_entries (c2EntryB :: c2EntryA :: [])).Pairwise
      (fun a b => a.pos < b.pos) ∧
    final_sort_titles ((sort_directory_entries (c2EntryB :: c2EntryA :: [])).map
        Entry.title) =
      (sort_directory_entries (c2EntryB :: c2EntryA :: [])).map
        (fun e => pyStrip (stripDigits e.title)) :=
  claim_C3 (c2EntryB :: c2EntryA :: []) (by decide)

/-! ## The end-to-end pipeline on the 35-line input (claim C1) -/

set_option maxRecDepth 10000 in
theorem c1_extract : extract_directory_tuples_from_text c1TextCn = c1Entries := by
  decide

set_option maxRecDepth 10000 in
theorem c1_filter : filter_entries c1Entries = c1Entries := by
  decide

set_option maxRecDepth 10000 in
theorem c1_select : select_directory c1Entries = (some c1Entries, some 1) := by
  decide

set_option maxRecDepth 10000 in
unseal List.merge List.mergeSort in
theorem c1_sort : sort_directory_entries c1Entries = c1Entries := by
  decide

set_option maxRecDepth 10000 in
theorem c1_final : final_sort_titles (c1Entries.map Entry.title) = c1Expected := by
  decide

set_option maxRecDepth 10000 in
/-- Counterexample to C1 as stated: with `{n}` rendered in Arabic digits
(第1章 ... 第35章, every title 标题n passing the validity rules), the
第...章 branch of the marker pattern accepts Chinese numerals only and no
other branch matches, so the classifier extracts nothing and the pipeline
fails with `(None, None)` instead of returning 35 titles. -/
theorem claim_C1_cex :
    ((List.range 35).all (fun i =>
      is_valid_directory_item (('标' :: '题' :: []) ++ Nat.toDigits 10 (i + 1)))) = true ∧
    extract_directory_tuples_from_text c1TextAr = [] ∧
    pipelineTitles c1TextAr = none := by
  exact ⟨by decide, by decide, by decide⟩

/-- C1 (amended): with `{n}` rendered as Chinese numerals (第一章 ...
第三十五章), the pipeline extract → filter → select → sort → clean returns
exactly the 35 titles 标题一 ... 标题三十五 in n-ascending order; digit
stripping leaves them unchanged because they contain no Arabic digits. -/
theorem claim_C1 :
    pipelineTitles c1TextCn = some c1Expected ∧ c1Expected.length = 35 := by
  constructor
  · unfold pipelineTitles
    rw [c1_extract, c1_filter, c1_select]
    simp only []
    rw [c1_sort, c1_final]
  · decide

/-! ## Facts about the book-title extractor (claim C9) -/

theorem insertNew_nodup (acc : List (List Char)) (t : List Char) (h : acc.Nodup) :
    (insertNew acc t).Nodup := by
  unfold insertNew
  by_cases hm : t ∈ acc
  · rw [if_pos hm]; exact h
  · rw [if_neg hm]
    simp [List.nodup_append, h, hm]

theorem collectTitles_nodup (k : Nat) :
    ∀ (ms : List BookMatch) (acc : List (List Char)), acc.Nodup →
      (collectTitles k ms acc).Nodup := by
  intro ms
  induction ms with
  | nil => intro acc h; exact h
  | cons m ms2 ih =>
    intro acc h
    rw [collectTitles]
    by_cases hb : k ≤ acc.length
    · rw [if_pos hb]; exact h
    · rw [if_neg hb]
      apply ih
      repeat' split
      all_goals first
        | exact insertNew_nodup _ _ h
        | exact h

/-- C9 (amended): for every input text, cap, and set-iteration order, the
extractor returns at most `maxTitles` pairwise-distinct stripped title
spans; the enumeration order is the Python set iteration order, not
necessarily discovery order. -/
theorem claim_C9 (text : List Char) (maxTitles : Nat)
    (setIter : List (List Char) → List (List Char))
    (h : ∀ l : List (List Char), (setIter l).Perm l) :
    (extract_book_titles_with_authors text maxTitles setIter).Nodup ∧
    (extract_book_titles_with_authors text maxTitles setIter).length ≤ maxTitles := by
  constructor
  · apply List.Nodup.sublist (List.take_sublist _ _)
    exact ((h _).nodup_iff).mpr
      (collectTitles_nodup maxTitles (bookMatches text) [] (by simp))
  · unfold extract_book_titles_with_authors
    exact List.length_take_le _ _

/-- Witness for C9 (amended): the identity is a valid iteration order. -/
theorem claim_C9_witness :
    (extract_book_titles_with_authors c9Text 5 id).Nodup ∧
    (extract_book_titles_with_authors c9Text 5 id).length ≤ 5 :=
  claim_C9 c9Text 5 id (fun l => List.Perm.refl l)

/-- Counterexample to C9 as stated: the result order is the iteration
order of the Python set, which CPython does not guarantee to be discovery
order.  Reversal is a valid set-iteration order (it permutes the
elements), and under it the extractor returns the two titles of `c9Text`
in the opposite of discovery order, while the identity order returns
discovery order — so the claimed enumeration order does not hold for
every run of the source program. -/
theorem claim_C9_cex :
    (∀ l : List (List Char), (List.reverse l).Perm l) ∧
    extract_book_titles_with_authors c9Text 5 id =
      collectTitles 5 (bookMatches c9Text) [] ∧
    extract_book_titles_with_authors c9Text 5 List.reverse ≠
      collectTitles 5 (bookMatches c9Text) [] := by
  refine ⟨fun l => List.reverse_perm l, by decide, by decide⟩

/-! ## Facts about `fix_json_content` (claim C8) -/

theorem pyFind_cons_self (c : Char) (l : List Char) : pyFind c (c :: l) = some 0 := by
  rw [pyFind, if_pos rfl]

theorem pyFind_append_not_mem (c : Char) (l1 l2 : List Char)
    (h : ∀ x ∈ l1, x ≠ c) :
    pyFind c (l1 ++ l2) = (pyFind c l2).map (fun i => i + l1.length) := by
  induction l1 with
  | nil => simp
  | cons a t ih =>
    have ha : a ≠ c := h a (by simp)
    rw [List.cons_append, pyFind, if_neg ha, ih (fun x hx => h x (by simp [hx]))]
    cases pyFind c l2 with
    | none => rfl
    | some i =>
      simp only [Option.map_some', Option.some.injEq, List.length_cons]
      omega

/-- C8: on a JSON object surrounded by brace-free non-JSON garbage,
`fix_json_content` recovers the embedded object unchanged; and it raises
exactly when the direct parse and the first-brace-to-last-brace slice
parse both fail. -/
theorem claim_C8 :
    (∀ (pre mid post : List Char) (v : PyObj),
      (∀ c ∈ pre, c ≠ '\x7b' ∧ c ≠ '\x7d') →
      (∀ c ∈ post, c ≠ '\x7b' ∧ c ≠ '\x7d') →
      json_loads ('\x7b' :: mid ++ ('\x7d' :: [])) = some v →
      json_loads (pre ++ ('\x7b' :: mid ++ ('\x7d' :: [])) ++ post) = none →
      fix_json_content (pre ++ ('\x7b' :: mid ++ ('\x7d' :: [])) ++ post) =
        Except.ok v) ∧
    (∀ raw : List Char,
      isErr (fix_json_content raw) = true ↔
        (json_loads raw = none ∧ sliceLoad raw = none)) := by
  constructor
  · intro pre mid post v hpre hpost hobj hfail
    set obj : List Char := '\x7b' :: mid ++ ('\x7d' :: []) with hobjdef
    have hlenobj : obj.length = mid.length + 2 := by simp [hobjdef]
    have hfind : pyFind '\x7b' (pre ++ obj ++ post) = some pre.length := by
      rw [List.append_assoc,
        pyFind_append_not_mem '\x7b' pre (obj ++ post) (fun x hx => (hpre x hx).1),
        show obj ++ post = '\x7b' :: ((mid ++ ('\x7d' :: [])) ++ post) from by
          simp [hobjdef],
        pyFind_cons_self]
      simp
    have hrev : (pre ++ obj ++ post).reverse =
        post.reverse ++ ('\x7d' :: (mid.reverse ++ ('\x7b' :: []) ++ pre.reverse)) := by
      simp [hobjdef]
    have hrfind : pyRFind '\x7d' (pre ++ obj ++ post) =
        some (pre.length + obj.length - 1) := by
      unfold pyRFind
      rw [hrev,
        pyFind_append_not_mem '\x7d' post.reverse _
          (fun x hx => (hpost x (List.mem_reverse.mp hx)).2),
        pyFind_cons_self]
      simp only [Option.map_some', Option.some.injEq, List.length_reverse,
        List.length_append]
      omega
    unfold fix_json_content
    rw [hfail]
    simp only []
    rw [hfind, hrfind]
    simp only []
    have hlt : pre.length < pre.length + obj.length - 1 := by omega
    rw [if_pos hlt]
    have hslice : ((pre ++ obj ++ post).drop pre.length).take
        (pre.length + obj.length - 1 + 1 - pre.length) = obj := by
      rw [List.append_assoc, List.drop_left,
        show pre.length + obj.length - 1 + 1 - pre.length = obj.length from by omega,
        List.take_left]
    rw [hslice, hobjdef, hobj]
  · intro raw
    unfold fix_json_content sliceLoad
    cases hj : json_loads raw with
    | some v => simp [isErr]
    | none =>
      simp only []
      cases hf : pyFind '\x7b' raw with
      | none => simp [isErr]
      | some si =>
        cases hr : pyRFind '\x7d' raw with
        | none => simp [isErr]
        | some ei =>
          simp only []
          by_cases hlt : si < ei
          · rw [if_pos hlt, if_pos hlt]
            cases hs : json_loads ((raw.drop si).take (ei + 1 - si)) with
            | some v => simp [isErr]
            | none => simp [isErr]
          · rw [if_neg hlt, if_neg hlt]
            simp [isErr]

/-- Witness for C8, at the concrete round-trip input
prefix-garbage + object + suffix-garbage. -/
theorem claim_C8_witness :
    fix_json_content (c8Pre ++ ('\x7b' :: c8Mid ++ ('\x7d' :: [])) ++ c8Post) =
      Except.ok c8Expected :=
  claim_C8.1 c8Pre c8Mid c8Post c8Expected (by decide) (by decide) rfl rfl

end SelfStudy
